import Mathlib

/-!
Log-uniform sampler: seeding, bound validation and sampling.

A shallow embedding of `src/loguniformdist/src.cpp`.

* C++ exceptions are values of `Exception`; a function that can throw returns
  `Except Exception _`.
* `unsigned` is a natural number below `2 ^ 32`; a `static_cast<unsigned>` is a
  reduction modulo `2 ^ 32`.
* The floating-point type `T` of the templates is an arbitrary ordered type with a
  zero; nothing here depends on rounding.
* The standard-library objects the code uses (`std::random_device`, the clock,
  `std::thread`, `std::hash`, `std::mt19937`, `std::uniform_real_distribution`,
  `exp`) are parameters: an `Env` for the seeder, a `Sampling` for the sampler.
* The construction of a `std::vector` can throw: what the platform allows is a
  `Memory`.
-/

set_option autoImplicit false

/-- The exceptions that the program can raise: `std::runtime_error` with its message,
the `std::system_error` whose error condition is `std::errc::invalid_argument`, and the
two exceptions of the constructor of `std::vector`, `std::length_error` and
`std::bad_alloc`. -/
inductive Exception where
  | runtime_error (what : String)
  | system_error_invalid_argument
  | length_error
  | bad_alloc
  deriving DecidableEq, Repr

/-- Reduction of an integer to `unsigned` (32 bits), as `static_cast<unsigned>` does. -/
def toUnsigned (z : Int) : Nat := (z % (2 ^ 32 : Int)).toNat

/-! ## Seed provider -/

namespace manual

/-- Line 13: `decltype(auto) seeder(unsigned seed_arg) { return seed_arg; }`. -/
def seeder (seed_arg : Nat) : Nat := seed_arg

end manual

namespace automatic

/-- What `automatic::seeder` reads from outside the program.

* `entropy`: the value of `rng.entropy()` of the `std::random_device`;
* `device_value`: the value of `rng()`;
* `hash_id`: `std::hash<std::thread::id>`, where `none` is the id of no thread
  (a default-constructed `std::thread::id`) and `some k` the id of a running thread;
* `now_time_t`: `system_clock::to_time_t(system_clock::now())`, in seconds. -/
structure Env where
  entropy : ℚ
  device_value : Nat
  hash_id : Option Nat → Nat
  now_time_t : Int

/-- A `std::thread` object: the id of the thread of execution it represents, `none`
when it represents no thread. -/
structure Thread where
  id : Option Nat
  deriving DecidableEq, Repr

/-- The default constructor `std::thread{}`: an object that represents no thread. -/
def Thread.default : Thread := ⟨none⟩

/-- The member `get_id()`. -/
def Thread.get_id (t : Thread) : Option Nat := t.id

/-- The member `joinable()`: `get_id() != std::thread::id()`. -/
def Thread.joinable (t : Thread) : Bool := t.id.isSome

/-- The member `join()`: a joinable thread is waited for and the object then represents
no thread; on an object that is not joinable it throws `std::system_error` with the
condition `invalid_argument`. -/
def Thread.join (t : Thread) : Except Exception Thread :=
  if t.joinable then .ok ⟨none⟩ else .error .system_error_invalid_argument

/-- Lines 18-34, `automatic::seeder()`. -/
def seeder (env : Env) : Except Exception Nat :=
  if env.entropy ≠ 0 then
    .ok env.device_value
  else do
    let another_thread := Thread.default
    let another_thread_hashed_id := env.hash_id another_thread.get_id
    let _joined ← another_thread.join
    let this_thread_now_time_t := env.now_time_t
    pure (toUnsigned (another_thread_hashed_id : Int)
          ^^^ toUnsigned (Int.tmod this_thread_now_time_t 10000000000))

/-- The fallback seed in the words of the specification: the hash of the helper thread's
identity truncated to 32 bits, XOR the wall-clock time in seconds modulo
10,000,000,000 truncated to 32 bits. -/
def fallback_seed (env : Env) (helper_id : Option Nat) : Nat :=
  (env.hash_id helper_id % 2 ^ 32)
    ^^^ toUnsigned (Int.tmod env.now_time_t 10000000000)

/-- An environment whose random device reports no entropy. -/
def env_no_entropy : Env :=
  { entropy := 0
    device_value := 7
    hash_id := fun o => o.getD 0 + 12345
    now_time_t := 1700000000 }

/-- An environment whose random device reports entropy. -/
def env_hardware : Env :=
  { entropy := 32
    device_value := 3499211612
    hash_id := fun o => o.getD 0 + 12345
    now_time_t := 1700000000 }

end automatic

/-! ## Log-uniform sampler -/

namespace loguniform

/-- The message of the first `throw` of `parameter_assertion` (lines 47-48). -/
def min_message : String :=
  "ERROR: minimum value parameter in log-uniform distribution function " ++
  "must be greater than zero (there is no value for zero-negative logarithms)"

/-- The message of the second `throw` of `parameter_assertion` (lines 50-51). -/
def max_message : String :=
  "ERROR: maximum value parameter in log-uniform distribution function " ++
  "must be greater than zero (there is no value for zero-negative logarithms)"

/-- Lines 41-52, `loguniform::parameter_assertion(minval, maxval)`. -/
def parameter_assertion {T : Type} [Preorder T] [Zero T]
    [DecidableRel (fun (x y : T) => x ≤ y)] (minval maxval : T) : Except Exception Unit :=
  if minval ≤ 0 then
    .error (.runtime_error min_message)
  else if maxval ≤ 0 then
    .error (.runtime_error max_message)
  else
    .ok ()

/-- A message names a bound when the given words occur in it. -/
def mentions (message words : String) : Prop := words.toList <:+: message.toList

instance (message words : String) : Decidable (mentions message words) := by
  unfold mentions; infer_instance

/-- The standard-library objects used by the sampler, for a floating-point type `T`,
an engine state `S` and a distribution object `D`.

* `default_engine`: the state of `std::mt19937 rng{}`;
* `seed`: the member `rng.seed(seed_arg)`;
* `uniform_real_distribution`: the constructor of the distribution from its two bounds;
* `draw`: one call `distribution(engine)`, giving the value drawn and the two objects
  as the call leaves them;
* `exp`: the exponential function on `T`. -/
structure Sampling (T S D : Type) where
  default_engine : S
  seed : S → Nat → S
  uniform_real_distribution : T → T → D
  draw : D → S → T × D × S
  exp : T → T

/-- What the platform allows to a `std::vector<T>`.

* `max_size`: the value of `max_size()`;
* `allocate`: whether the allocator obtains storage for the given number of elements. -/
structure Memory where
  max_size : Nat
  allocate : Nat → Bool

/-- The constructor `std::vector<T>(n, value)`: it throws `std::length_error` when `n`
exceeds `max_size()`, `std::bad_alloc` when the storage cannot be obtained, and
otherwise holds `n` copies of `value`. -/
def vector {T : Type} (M : Memory) (n : Nat) (value : T) : Except Exception (List T) :=
  if M.max_size < n then
    .error .length_error
  else if M.allocate n = false then
    .error .bad_alloc
  else
    .ok (List.replicate n value)

section sampler

variable {T S D : Type}

/-- Lines 55-62, `loguniform::simulator(minval, maxval)`: the closure it returns is
represented by the distribution object it captures by value. -/
def simulator (E : Sampling T S D) (minval maxval : T) : D :=
  E.uniform_real_distribution minval maxval

/-- Line 60, one call of the closure on an engine: `exp(distribution(engine))`, with
the captured distribution and the engine as the call leaves them. -/
def simulator_call (E : Sampling T S D) (rnd : D) (random_number_generator_arg : S) :
    T × D × S :=
  let r := E.draw rnd random_number_generator_arg
  (E.exp r.1, r.2.1, r.2.2)

/-- Lines 71-72, `for (auto& v : samples) v = rnd(rng);`: every element of the vector is
overwritten in order by one call of the closure. -/
def fill (E : Sampling T S D) : List T → D → S → List T
  | [], _, _ => []
  | _ :: vs, rnd, rng =>
    let r := simulator_call E rnd rng
    r.1 :: fill E vs r.2.1 r.2.2

/-- Lines 65-74, `loguniform::distributor(minval, maxval, number_of_simulations_arg,
seed_arg)`. The body has no `throw` and does not call `parameter_assertion`; the only
exceptions are those of the constructor of the vector at line 67. -/
def distributor [Zero T] (E : Sampling T S D) (M : Memory) (minval maxval : T)
    (number_of_simulations_arg seed_arg : Nat) : Except Exception (List T) := do
  let samples ← vector M number_of_simulations_arg (0 : T)
  let rng := E.default_engine
  let rng := E.seed rng seed_arg
  let rnd := simulator E minval maxval
  pure (fill E samples rnd rng)

/-- The storage of the three local objects of `distributor`. When a call starts it holds
whatever was left there, for instance by an earlier call. -/
structure Locals (T S D : Type) where
  samples : List T
  rng : S
  rnd : D

/-- Lines 71-72 on the local objects: the loop of `fill`, together with the closure and
the engine as the last call leaves them. -/
def run_loop (E : Sampling T S D) : List T → D → S → List T × D × S
  | [], rnd, rng => ([], rnd, rng)
  | _ :: vs, rnd, rng =>
    let r := simulator_call E rnd rng
    let rest := run_loop E vs r.2.1 r.2.2
    (r.1 :: rest.1, rest.2.1, rest.2.2)

/-- Lines 65-74 statement by statement on the storage `w` of the local objects: each
declaration writes its object, the loop reads and writes them, and the call gives the
samples together with the storage as it leaves it. -/
def distributor_in [Zero T] (E : Sampling T S D) (M : Memory) (w : Locals T S D)
    (minval maxval : T) (number_of_simulations_arg seed_arg : Nat) :
    Except Exception (List T × Locals T S D) := do
  let samples ← vector M number_of_simulations_arg (0 : T)
  let w := { w with samples := samples }
  let w := { w with rng := E.default_engine }
  let w := { w with rng := E.seed w.rng seed_arg }
  let w := { w with rnd := simulator E minval maxval }
  let r := run_loop E w.samples w.rnd w.rng
  let w := { w with samples := r.1, rnd := r.2.1, rng := r.2.2 }
  pure (w.samples, w)

/-- Two calls with the same arguments, one after the other: the second starts on the
storage as the first left it. The result is the pair of the two sequences. -/
def two_calls [Zero T] (E : Sampling T S D) (M : Memory) (w : Locals T S D)
    (minval maxval : T) (number_of_simulations_arg seed_arg : Nat) :
    Except Exception (List T × List T) := do
  let first ← distributor_in E M w minval maxval number_of_simulations_arg seed_arg
  let second ← distributor_in E M first.2 minval maxval number_of_simulations_arg seed_arg
  pure (first.1, second.1)

/-- One uniform draw seen from the two objects only: the distribution and the engine
as the draw leaves them. -/
def advance (E : Sampling T S D) (st : D × S) : D × S :=
  let r := E.draw st.1 st.2
  (r.2.1, r.2.2)

/-- The distribution and the engine before the `i`-th draw (counted from 0), in the
words of the specification: one uniform distribution over the bounds and one engine
seeded once with the seed, advanced by one draw at a time. -/
def nth_state (E : Sampling T S D) (minval maxval : T) (seed_arg : Nat) (i : Nat) : D × S :=
  (advance E)^[i] (E.uniform_real_distribution minval maxval, E.seed E.default_engine seed_arg)

/-- The `i`-th successive uniform draw (counted from 0). -/
def nth_draw (E : Sampling T S D) (minval maxval : T) (seed_arg : Nat) (i : Nat) : T :=
  let st := nth_state E minval maxval seed_arg i
  (E.draw st.1 st.2).1

/-- The sequence of the specification: for each position below `count`, the exponential
of the uniform draw of that position. -/
def draw_sequence (E : Sampling T S D) (minval maxval : T) (count seed_arg : Nat) : List T :=
  (List.range count).map (fun i => E.exp (nth_draw E minval maxval seed_arg i))

end sampler

/-! ### An instance of the library parameters in exact arithmetic -/

/-- State of the 32-bit Mersenne Twister: 624 words and the position of the next one. -/
structure MT where
  mt : Array Nat
  idx : Nat

/-- Seeding of MT19937 from one value. -/
def mt_seed (value : Nat) : MT :=
  let step := fun (acc : Array Nat × Nat) (i : Nat) =>
    let x := (1812433253 * (acc.2 ^^^ (acc.2 >>> 30)) + i) % 2 ^ 32
    (acc.1.push x, x)
  let x0 := value % 2 ^ 32
  ⟨((List.range 623).map (fun i => i + 1)).foldl step (#[x0], x0) |>.1, 624⟩

/-- Regeneration of the 624 words of MT19937. -/
def mt_twist (mt : Array Nat) : Array Nat :=
  (List.range 624).foldl (fun (a : Array Nat) (i : Nat) =>
    let y := (a.getD i 0 &&& 0x80000000) ||| (a.getD ((i + 1) % 624) 0 &&& 0x7fffffff)
    let x := a.getD ((i + 397) % 624) 0 ^^^ (y >>> 1) ^^^ (if y % 2 = 1 then 0x9908B0DF else 0)
    a.setD i x) mt

/-- One output of MT19937 and the state after it. -/
def mt_next (g : MT) : Nat × MT :=
  let g := if 624 ≤ g.idx then (⟨mt_twist g.mt, 0⟩ : MT) else g
  let y := g.mt.getD g.idx 0
  let y := y ^^^ (y >>> 11)
  let y := y ^^^ ((y <<< 7) &&& 0x9D2C5680)
  let y := y ^^^ ((y <<< 15) &&& 0xEFC60000)
  let y := y ^^^ (y >>> 18)
  (y % 2 ^ 32, ⟨g.mt, g.idx + 1⟩)

/-- A number in `[0, 1)` from two successive 32-bit outputs of the engine. -/
def mt_canonical (g : MT) : ℚ × MT :=
  let r1 := mt_next g
  let r2 := mt_next r1.2
  (((r1.1 + r2.1 * 2 ^ 32 : Nat) : ℚ) / 2 ^ 64, r2.2)

/-- The cubic Taylor polynomial of the exponential, an increasing function on `ℚ`. -/
def exp3 (x : ℚ) : ℚ := 1 + x + x ^ 2 / 2 + x ^ 3 / 6

/-- The library parameters over `ℚ`: MT19937 with its default seed 5489, the uniform
draw `a + (b - a) * u` for `u` in `[0, 1)`, and `exp3` for the exponential. -/
def reference_sampling : Sampling ℚ MT (ℚ × ℚ) :=
  { default_engine := mt_seed 5489
    seed := fun _ value => mt_seed value
    uniform_real_distribution := fun a b => (a, b)
    draw := fun d g =>
      let r := mt_canonical g
      (r.1 * (d.2 - d.1) + d.1, d, r.2)
    exp := exp3 }

/-- A platform for `std::vector<double>` with 64-bit pointers: `max_size()` is
`2 ^ 60 - 1`, and storage is obtained for up to `2 ^ 30` elements. -/
def reference_memory : Memory :=
  { max_size := 2 ^ 60 - 1
    allocate := fun n => decide (n ≤ 2 ^ 30) }

/-- Storage of the local objects that holds leftovers: three stale samples, an engine
seeded with 7 and a distribution over `(-1, 1)`. -/
def stale_locals : Locals ℚ MT (ℚ × ℚ) :=
  { samples := [1, 2, 3]
    rng := mt_seed 7
    rnd := (-1, 1) }

end loguniform

/-! ## Properties -/

set_option maxRecDepth 100000

namespace manual

/-- C5: `manual::seeder` returns its argument unchanged, for every value. -/
theorem seeder_identity (x : Nat) : seeder x = x := rfl

end manual

namespace automatic

/-- With a nonzero entropy estimate the seeder returns the value drawn from the random
device. -/
theorem seeder_hardware (env : Env) (h : env.entropy ≠ 0) :
    seeder env = .ok env.device_value := by
  simp [seeder, h]

/-- The `join()` of a default-constructed thread object throws. -/
theorem join_default : Thread.default.join = .error .system_error_invalid_argument := rfl

/-- With a zero entropy estimate the seeder ends in the exception thrown by `join()`. -/
theorem seeder_fallback (env : Env) (h : env.entropy = 0) :
    seeder env = .error .system_error_invalid_argument := by
  simp only [seeder, h, ne_eq, not_true_eq_false, if_false]
  rfl

/-- C6: on the fallback path `automatic::seeder` does not return a seed: in every
environment whose entropy estimate is zero the `join()` of the default-constructed
thread object throws `std::system_error` and the seeder ends in that exception. -/
theorem seeder_fails_without_entropy (env : Env) (h : env.entropy = 0) :
    seeder env = .error .system_error_invalid_argument ∧ ∀ v, seeder env ≠ .ok v := by
  rw [seeder_fallback env h]
  exact ⟨rfl, fun v hv => by cases hv⟩

/-- The theorem `seeder_fails_without_entropy` at the environment `env_no_entropy`. -/
theorem seeder_fails_without_entropy_witness :
    env_no_entropy.entropy = 0 ∧
    (seeder env_no_entropy = .error .system_error_invalid_argument ∧
      ∀ v, seeder env_no_entropy ≠ .ok v) :=
  ⟨rfl, seeder_fails_without_entropy env_no_entropy rfl⟩

/-- C7: in the environment `env_no_entropy` (entropy estimate zero) the seeder does not
return the XOR of the truncated thread-id hash and the truncated clock reading, whatever
the identity of the helper thread: it ends in an exception. In the environment
`env_hardware` (entropy estimate nonzero) it returns the value of the random device. -/
theorem seeder_fallback_not_xor :
    (∀ helper_id, seeder env_no_entropy ≠ .ok (fallback_seed env_no_entropy helper_id)) ∧
    seeder env_no_entropy = .error .system_error_invalid_argument ∧
    seeder env_hardware = .ok env_hardware.device_value := by
  have h : seeder env_no_entropy = .error .system_error_invalid_argument :=
    seeder_fallback env_no_entropy rfl
  refine ⟨fun helper_id hv => ?_, h, seeder_hardware env_hardware (by decide)⟩
  rw [h] at hv
  cases hv

end automatic

namespace loguniform

/-! ### Bound validation -/

theorem min_message_mentions :
    mentions min_message "minimum value parameter" ∧
    ¬ mentions min_message "maximum value parameter" := by
  constructor <;> decide

theorem max_message_mentions :
    mentions max_message "maximum value parameter" ∧
    ¬ mentions max_message "minimum value parameter" := by
  constructor <;> decide

/-- C9: `parameter_assertion` raises exactly when a bound is non-positive; for
`min <= 0` the error carries the message that names the minimum value parameter (and
not the maximum), for `min > 0` and `max <= 0` the message that names the maximum value
parameter (and not the minimum), and for `min > 0` and `max > 0` nothing is raised,
whatever the order of the two bounds. -/
theorem parameter_assertion_spec {T : Type} [Preorder T] [Zero T]
    [DecidableRel (fun (x y : T) => x ≤ y)] (minval maxval : T) :
    (minval ≤ 0 → parameter_assertion minval maxval = .error (.runtime_error min_message)) ∧
    (0 < minval → maxval ≤ 0 →
      parameter_assertion minval maxval = .error (.runtime_error max_message)) ∧
    (0 < minval → 0 < maxval → parameter_assertion minval maxval = .ok ()) ∧
    ((∃ e, parameter_assertion minval maxval = .error e) ↔ (minval ≤ 0 ∨ maxval ≤ 0)) ∧
    (mentions min_message "minimum value parameter" ∧
      ¬ mentions min_message "maximum value parameter") ∧
    (mentions max_message "maximum value parameter" ∧
      ¬ mentions max_message "minimum value parameter") := by
  refine ⟨?_, ?_, ?_, ?_, min_message_mentions, max_message_mentions⟩
  · intro h
    simp [parameter_assertion, h]
  · intro h1 h2
    have h1' : ¬ minval ≤ 0 := not_le_of_lt h1
    simp [parameter_assertion, h1', h2]
  · intro h1 h2
    have h1' : ¬ minval ≤ 0 := not_le_of_lt h1
    have h2' : ¬ maxval ≤ 0 := not_le_of_lt h2
    simp [parameter_assertion, h1', h2']
  · unfold parameter_assertion
    by_cases h1 : minval ≤ 0
    · simp [h1]
    · by_cases h2 : maxval ≤ 0
      · simp [h1, h2]
      · simp [h1, h2]

/-- The theorem `parameter_assertion_spec` at the bounds `(0, 5)`, `(1, -1)` and
`(20.06, 1.5)`. -/
theorem parameter_assertion_spec_witness :
    parameter_assertion (0 : ℚ) 5 = .error (.runtime_error min_message) ∧
    parameter_assertion (1 : ℚ) (-1) = .error (.runtime_error max_message) ∧
    parameter_assertion (1003 / 50 : ℚ) (3 / 2) = .ok () :=
  ⟨(parameter_assertion_spec (0 : ℚ) 5).1 (le_refl 0),
   (parameter_assertion_spec (1 : ℚ) (-1)).2.1 (by norm_num) (by norm_num),
   (parameter_assertion_spec (1003 / 50 : ℚ) (3 / 2)).2.2.1 (by norm_num) (by norm_num)⟩

end loguniform

namespace loguniform

/-! ### The sampling loop -/

section sampler

variable {T S D : Type}

theorem fill_length (E : Sampling T S D) (vs : List T) (rnd : D) (rng : S) :
    (fill E vs rnd rng).length = vs.length := by
  induction vs generalizing rnd rng with
  | nil => rfl
  | cons v vs ih => simp [fill, ih]

theorem fill_take (E : Sampling T S D) (k : Nat) (vs : List T) (rnd : D) (rng : S) :
    fill E (vs.take k) rnd rng = (fill E vs rnd rng).take k := by
  induction vs generalizing k rnd rng with
  | nil => simp [fill]
  | cons v vs ih =>
    cases k with
    | zero => simp [fill]
    | succ k => simp [fill, ih]

theorem fill_getElem? (E : Sampling T S D) (vs : List T) (rnd : D) (rng : S) (i : Nat)
    (hi : i < vs.length) :
    (fill E vs rnd rng)[i]? =
      some (E.exp (E.draw ((advance E)^[i] (rnd, rng)).1 ((advance E)^[i] (rnd, rng)).2).1) := by
  induction vs generalizing rnd rng i with
  | nil => simp at hi
  | cons v vs ih =>
    cases i with
    | zero => simp [fill, simulator_call]
    | succ i =>
      have hi' : i < vs.length := by simpa using hi
      simp only [fill, List.getElem?_cons_succ, Function.iterate_succ, Function.comp_apply]
      rw [ih _ _ i hi']
      rfl

theorem fill_mem_exists (E : Sampling T S D) (vs : List T) (rnd : D) (rng : S) (x : T)
    (hx : x ∈ fill E vs rnd rng) :
    ∃ i, i < vs.length ∧
      x = E.exp (E.draw ((advance E)^[i] (rnd, rng)).1 ((advance E)^[i] (rnd, rng)).2).1 := by
  obtain ⟨i, hi, hxi⟩ := List.getElem_of_mem hx
  have hi' : i < vs.length := by simpa [fill_length] using hi
  refine ⟨i, hi', ?_⟩
  have h := fill_getElem? E vs rnd rng i hi'
  rw [List.getElem?_eq_getElem hi] at h
  rw [← hxi]
  exact Option.some.inj h

theorem run_loop_fst (E : Sampling T S D) (vs : List T) (rnd : D) (rng : S) :
    (run_loop E vs rnd rng).1 = fill E vs rnd rng := by
  induction vs generalizing rnd rng with
  | nil => rfl
  | cons v vs ih => simp [run_loop, fill, ih]

theorem fill_eq_draw_sequence [Zero T] (E : Sampling T S D) (minval maxval : T)
    (n seed_arg : Nat) :
    fill E (List.replicate n (0 : T)) (E.uniform_real_distribution minval maxval)
        (E.seed E.default_engine seed_arg) =
      draw_sequence E minval maxval n seed_arg := by
  apply List.ext_getElem?
  intro i
  by_cases hi : i < n
  · rw [fill_getElem? E _ _ _ i (by simpa using hi)]
    simp [draw_sequence, hi, nth_draw, nth_state]
  · have h1 : (fill E (List.replicate n (0 : T)) (E.uniform_real_distribution minval maxval)
        (E.seed E.default_engine seed_arg)).length ≤ i := by
      simpa [fill_length] using hi
    have h2 : (draw_sequence E minval maxval n seed_arg).length ≤ i := by
      simpa [draw_sequence] using hi
    rw [List.getElem?_eq_none h1, List.getElem?_eq_none h2]

theorem vector_ok {T : Type} (M : Memory) (n : Nat) (value : T) (hmax : n ≤ M.max_size)
    (halloc : M.allocate n = true) : vector M n value = .ok (List.replicate n value) := by
  simp [vector, Nat.not_lt.2 hmax, halloc]

theorem distributor_bind [Zero T] (E : Sampling T S D) (M : Memory) (minval maxval : T)
    (n seed_arg : Nat) :
    distributor E M minval maxval n seed_arg =
      Except.map (fun samples => fill E samples (E.uniform_real_distribution minval maxval)
        (E.seed E.default_engine seed_arg)) (vector M n (0 : T)) := by
  unfold distributor
  cases vector M n (0 : T) <;> rfl

theorem distributor_eq [Zero T] (E : Sampling T S D) (M : Memory) (minval maxval : T)
    (n seed_arg : Nat) (hmax : n ≤ M.max_size) (halloc : M.allocate n = true) :
    distributor E M minval maxval n seed_arg =
      .ok (fill E (List.replicate n 0) (E.uniform_real_distribution minval maxval)
        (E.seed E.default_engine seed_arg)) := by
  rw [distributor_bind, vector_ok M n 0 hmax halloc]
  rfl

theorem distributor_in_fst [Zero T] (E : Sampling T S D) (M : Memory) (w : Locals T S D)
    (minval maxval : T) (n seed_arg : Nat) :
    Except.map Prod.fst (distributor_in E M w minval maxval n seed_arg) =
      distributor E M minval maxval n seed_arg := by
  unfold distributor_in distributor
  cases vector M n (0 : T) with
  | error e => rfl
  | ok samples =>
    show Except.ok (run_loop E samples _ _).1 = Except.ok (fill E samples _ _)
    rw [run_loop_fst]

end sampler

/-! ### The instance in exact arithmetic -/

theorem exp3_monotone : Monotone exp3 := by
  intro a b hab
  have hq : 0 < a ^ 2 + a * b + b ^ 2 + 3 * a + 3 * b + 6 := by
    nlinarith [sq_nonneg (a + b + 2), sq_nonneg (a - b)]
  have hd : exp3 b - exp3 a = (b - a) * (a ^ 2 + a * b + b ^ 2 + 3 * a + 3 * b + 6) / 6 := by
    unfold exp3; ring
  have hnn : 0 ≤ exp3 b - exp3 a := by
    rw [hd]
    exact div_nonneg (mul_nonneg (sub_nonneg.2 hab) hq.le) (by norm_num)
  linarith

theorem mt_next_lt (g : MT) : (mt_next g).1 < 2 ^ 32 := by
  unfold mt_next
  exact Nat.mod_lt _ (by norm_num)

theorem mt_canonical_range (g : MT) : 0 ≤ (mt_canonical g).1 ∧ (mt_canonical g).1 ≤ 1 := by
  have h1 := mt_next_lt g
  have h2 := mt_next_lt (mt_next g).2
  unfold mt_canonical
  constructor
  · positivity
  · rw [div_le_one (by positivity)]
    have h : (mt_next g).1 + (mt_next (mt_next g).2).1 * 2 ^ 32 ≤ 2 ^ 64 := by omega
    exact_mod_cast h

theorem reference_draw_range (a b : ℚ) (hab : a ≤ b) (g : MT) :
    a ≤ (reference_sampling.draw (a, b) g).1 ∧ (reference_sampling.draw (a, b) g).1 ≤ b := by
  obtain ⟨h0, h1⟩ := mt_canonical_range g
  have hba : 0 ≤ b - a := sub_nonneg.2 hab
  simp only [reference_sampling]
  constructor
  · nlinarith [mul_nonneg h0 hba]
  · nlinarith [mul_nonneg (sub_nonneg.2 h1) hba]

theorem reference_nth_state_fst (a b : ℚ) (seed_arg i : Nat) :
    (nth_state reference_sampling a b seed_arg i).1 = (a, b) := by
  induction i with
  | zero => rfl
  | succ i ih =>
    unfold nth_state at ih ⊢
    rw [Function.iterate_succ_apply']
    simp only [advance]
    exact ih

theorem reference_nth_draw_range (a b : ℚ) (hab : a ≤ b) (seed_arg i : Nat) :
    a ≤ nth_draw reference_sampling a b seed_arg i ∧
      nth_draw reference_sampling a b seed_arg i ≤ b := by
  unfold nth_draw
  simp only
  rw [reference_nth_state_fst]
  exact reference_draw_range a b hab _

theorem reference_memory_ok (n : Nat) (hn : n ≤ 2 ^ 30) :
    n ≤ reference_memory.max_size ∧ reference_memory.allocate n = true := by
  simp only [reference_memory, decide_eq_true_eq]
  omega

end loguniform

namespace loguniform

/-! ### The distributor -/

section distributor

variable {T S D : Type}

/-- C1: at the bounds `(0, 5)`, which `parameter_assertion` rejects with the message
for the minimum value, `distributor` raises nothing: with count 10 and seed 1 it
returns a sequence of 10 samples. -/
theorem distributor_skips_validation :
    parameter_assertion (0 : ℚ) 5 = .error (.runtime_error min_message) ∧
    (∃ xs, distributor reference_sampling reference_memory (0 : ℚ) 5 10 1 = .ok xs ∧
      xs.length = 10) ∧
    ∀ e, distributor reference_sampling reference_memory (0 : ℚ) 5 10 1 ≠ .error e := by
  have h := distributor_eq reference_sampling reference_memory (0 : ℚ) 5 10 1
    (reference_memory_ok 10 (by norm_num)).1 (reference_memory_ok 10 (by norm_num)).2
  refine ⟨by simp [parameter_assertion], ⟨_, h, ?_⟩, ?_⟩
  · simp [fill_length]
  · intro e he
    rw [h] at he
    cases he

/-- C2, as the code has it: for bounds `0 < min < max`, any seed and a count greater
than zero for which the vector can be constructed (the count does not exceed
`max_size()` and the storage is obtained), `distributor` returns a sequence of exactly
`count` values. -/
theorem distributor_length [Preorder T] [Zero T] (E : Sampling T S D) (M : Memory)
    (minval maxval : T) (n seed_arg : Nat)
    (_hmin : 0 < minval) (_hlt : minval < maxval) (_hn : 0 < n)
    (hmax : n ≤ M.max_size) (halloc : M.allocate n = true) :
    ∃ xs, distributor E M minval maxval n seed_arg = .ok xs ∧ xs.length = n :=
  ⟨_, distributor_eq E M minval maxval n seed_arg hmax halloc, by simp [fill_length]⟩

/-- The theorem `distributor_length` at the bounds `(1.5, 20.06)`, count 100 and
seed 42. -/
theorem distributor_length_witness :
    ∃ xs, distributor reference_sampling reference_memory (3 / 2 : ℚ) (1003 / 50) 100 42 =
        .ok xs ∧ xs.length = 100 :=
  distributor_length reference_sampling reference_memory (3 / 2 : ℚ) (1003 / 50) 100 42
    (by norm_num) (by norm_num) (by norm_num)
    (reference_memory_ok 100 (by norm_num)).1 (reference_memory_ok 100 (by norm_num)).2

/-- C2, as stated, fails: at the bounds `(1.5, 20.06)`, seed 42 and the count `2 ^ 61`,
which exceeds the `max_size()` of the vector, `distributor` ends in
`std::length_error` and returns no sequence. -/
theorem distributor_length_counterexample :
    (0 : ℚ) < 3 / 2 ∧ (3 / 2 : ℚ) < 1003 / 50 ∧ 0 < 2 ^ 61 ∧
    distributor reference_sampling reference_memory (3 / 2 : ℚ) (1003 / 50) (2 ^ 61) 42 =
      .error .length_error ∧
    ¬ ∃ xs, distributor reference_sampling reference_memory (3 / 2 : ℚ) (1003 / 50)
        (2 ^ 61) 42 = .ok xs ∧ xs.length = 2 ^ 61 := by
  have h : distributor reference_sampling reference_memory (3 / 2 : ℚ) (1003 / 50)
      (2 ^ 61) 42 = .error .length_error := by
    rw [distributor_bind]
    have hv : vector reference_memory (2 ^ 61) (0 : ℚ) = .error .length_error := by
      unfold vector
      rw [if_pos (by norm_num [reference_memory])]
    rw [hv]
    rfl
  refine ⟨by norm_num, by norm_num, by norm_num, h, ?_⟩
  rintro ⟨xs, hxs, -⟩
  rw [h] at hxs
  cases hxs

/-- C3: for bounds `0 < min < max`, a count greater than zero whose vector can be
constructed and any seed, when the exponential is monotone and each of the `count`
uniform draws lies between `min` and `max`, `distributor` returns a sequence and every
value of it lies between `exp(min)` and `exp(max)`. -/
theorem distributor_range [Preorder T] [Zero T] (E : Sampling T S D) (M : Memory)
    (minval maxval : T) (n seed_arg : Nat) (hexp : Monotone E.exp)
    (_hmin : 0 < minval) (_hlt : minval < maxval) (_hn : 0 < n)
    (hmax : n ≤ M.max_size) (halloc : M.allocate n = true)
    (hdraw : ∀ i, i < n →
      minval ≤ nth_draw E minval maxval seed_arg i ∧
        nth_draw E minval maxval seed_arg i ≤ maxval) :
    ∃ xs, distributor E M minval maxval n seed_arg = .ok xs ∧
      ∀ x, x ∈ xs → E.exp minval ≤ x ∧ x ≤ E.exp maxval := by
  refine ⟨_, distributor_eq E M minval maxval n seed_arg hmax halloc, ?_⟩
  intro x hx
  obtain ⟨i, hi, rfl⟩ := fill_mem_exists E _ _ _ x hx
  have hi' : i < n := by simpa using hi
  obtain ⟨h1, h2⟩ := hdraw i hi'
  exact ⟨hexp h1, hexp h2⟩

/-- The range property for the real exponential: over `ℝ` with `Real.exp`, draws between
the bounds give samples between `exp(min)` and `exp(max)`. -/
theorem distributor_range_real (E : Sampling ℝ S D) (M : Memory) (hE : E.exp = Real.exp)
    (minval maxval : ℝ) (n seed_arg : Nat)
    (hmax : n ≤ M.max_size) (halloc : M.allocate n = true)
    (hdraw : ∀ i, i < n →
      minval ≤ nth_draw E minval maxval seed_arg i ∧
        nth_draw E minval maxval seed_arg i ≤ maxval) :
    ∃ xs, distributor E M minval maxval n seed_arg = .ok xs ∧
      ∀ x, x ∈ xs → Real.exp minval ≤ x ∧ x ≤ Real.exp maxval := by
  refine ⟨_, distributor_eq E M minval maxval n seed_arg hmax halloc, ?_⟩
  intro x hx
  obtain ⟨i, hi, rfl⟩ := fill_mem_exists E _ _ _ x hx
  have hi' : i < n := by simpa using hi
  obtain ⟨h1, h2⟩ := hdraw i hi'
  rw [hE]
  exact ⟨Real.exp_le_exp.2 h1, Real.exp_le_exp.2 h2⟩

/-- The range property for every call that returns: whatever the platform allows, a
sequence that `distributor` returns has all its values between `exp(min)` and
`exp(max)` when the draws lie between the bounds. -/
theorem distributor_range_of_ok [Preorder T] [Zero T] (E : Sampling T S D) (M : Memory)
    (minval maxval : T) (n seed_arg : Nat) (hexp : Monotone E.exp)
    (hdraw : ∀ i, i < n →
      minval ≤ nth_draw E minval maxval seed_arg i ∧
        nth_draw E minval maxval seed_arg i ≤ maxval)
    (xs : List T) (hxs : distributor E M minval maxval n seed_arg = .ok xs) :
    ∀ x, x ∈ xs → E.exp minval ≤ x ∧ x ≤ E.exp maxval := by
  rw [distributor_bind] at hxs
  cases hv : vector M n (0 : T) with
  | error e => rw [hv] at hxs; cases hxs
  | ok samples =>
    rw [hv] at hxs
    have hs : samples = List.replicate n 0 := by
      unfold vector at hv
      split_ifs at hv
      exact (Except.ok.inj hv).symm
    subst hs
    have hx' : xs = fill E (List.replicate n 0) (E.uniform_real_distribution minval maxval)
        (E.seed E.default_engine seed_arg) := (Except.ok.inj hxs).symm
    subst hx'
    intro x hx
    obtain ⟨i, hi, rfl⟩ := fill_mem_exists E _ _ _ x hx
    have hi' : i < n := by simpa using hi
    obtain ⟨h1, h2⟩ := hdraw i hi'
    exact ⟨hexp h1, hexp h2⟩

/-- The theorem `distributor_range` at the bounds `(1.5, 20.06)`, count 100 and
seed 42. -/
theorem distributor_range_witness :
    ∃ xs, distributor reference_sampling reference_memory (3 / 2 : ℚ) (1003 / 50) 100 42 =
        .ok xs ∧
      ∀ x, x ∈ xs → exp3 (3 / 2) ≤ x ∧ x ≤ exp3 (1003 / 50) :=
  distributor_range reference_sampling reference_memory (3 / 2 : ℚ) (1003 / 50) 100 42
    exp3_monotone (by norm_num) (by norm_num) (by norm_num)
    (reference_memory_ok 100 (by norm_num)).1 (reference_memory_ok 100 (by norm_num)).2
    (fun i _ => reference_nth_draw_range (3 / 2) (1003 / 50) (by norm_num) 42 i)

/-- C4: the result of a call does not depend on what the storage of the local objects
(the vector, the engine, the distribution) holds when the call starts: from any two
such states `w1` and `w2` the call gives the same result; that result is the exception
of the vector constructor or else the sequence `draw_sequence`, a function of
`(min, max, count, seed)` alone; and of two calls with the same arguments made one
after the other, the second on the storage as the first left it, both return the same
sequence. -/
theorem distributor_deterministic [Zero T] (E : Sampling T S D) (M : Memory)
    (w1 w2 : Locals T S D) (minval maxval : T) (n seed_arg : Nat) :
    Except.map Prod.fst (distributor_in E M w1 minval maxval n seed_arg) =
      Except.map Prod.fst (distributor_in E M w2 minval maxval n seed_arg) ∧
    Except.map Prod.fst (distributor_in E M w1 minval maxval n seed_arg) =
      Except.map (fun _ => draw_sequence E minval maxval n seed_arg) (vector M n (0 : T)) ∧
    two_calls E M w1 minval maxval n seed_arg =
      Except.map (fun _ => (draw_sequence E minval maxval n seed_arg,
        draw_sequence E minval maxval n seed_arg)) (vector M n (0 : T)) := by
  have key : ∀ w : Locals T S D,
      Except.map Prod.fst (distributor_in E M w minval maxval n seed_arg) =
        Except.map (fun _ => draw_sequence E minval maxval n seed_arg)
          (vector M n (0 : T)) := by
    intro w
    rw [distributor_in_fst, distributor_bind]
    cases hv : vector M n (0 : T) with
    | error e => rfl
    | ok samples =>
      have hs : samples = List.replicate n 0 := by
        unfold vector at hv
        split_ifs at hv
        exact (Except.ok.inj hv).symm
      subst hs
      show Except.ok (fill E (List.replicate n 0) (E.uniform_real_distribution minval maxval)
        (E.seed E.default_engine seed_arg)) = Except.ok (draw_sequence E minval maxval n seed_arg)
      rw [fill_eq_draw_sequence]
  refine ⟨by rw [key w1, key w2], key w1, ?_⟩
  unfold two_calls distributor_in
  cases hv : vector M n (0 : T) with
  | error e => rfl
  | ok samples =>
    have hs : samples = List.replicate n 0 := by
      unfold vector at hv
      split_ifs at hv
      exact (Except.ok.inj hv).symm
    subst hs
    show Except.ok
        ((run_loop E (List.replicate n 0) (simulator E minval maxval)
            (E.seed E.default_engine seed_arg)).1,
          (run_loop E (List.replicate n 0) (simulator E minval maxval)
            (E.seed E.default_engine seed_arg)).1) =
      Except.ok (draw_sequence E minval maxval n seed_arg,
        draw_sequence E minval maxval n seed_arg)
    rw [run_loop_fst]
    unfold simulator
    rw [fill_eq_draw_sequence]

/-- The theorem `distributor_deterministic` at the bounds `(1.5, 20.06)`, count 100 and
seed 42: the call on storage that holds leftovers against the call on the storage as
that call left it. -/
theorem distributor_deterministic_witness :
    two_calls reference_sampling reference_memory stale_locals (3 / 2 : ℚ) (1003 / 50) 100 42 =
      Except.map (fun _ => (draw_sequence reference_sampling (3 / 2) (1003 / 50) 100 42,
        draw_sequence reference_sampling (3 / 2) (1003 / 50) 100 42))
        (vector reference_memory 100 (0 : ℚ)) :=
  (distributor_deterministic reference_sampling reference_memory stale_locals stale_locals
    (3 / 2 : ℚ) (1003 / 50) 100 42).2.2

/-- C8: for every `min`, `max`, `seed` and every `count` whose vector can be
constructed, `distributor` returns a sequence whose `i`-th element, for `i < count`, is
the exponential of the `i`-th successive draw of the uniform distribution over the
bounds, taken from one engine seeded once with `seed`. -/
theorem distributor_nth [Zero T] (E : Sampling T S D) (M : Memory) (minval maxval : T)
    (n seed_arg : Nat) (i : Nat) (hi : i < n)
    (hmax : n ≤ M.max_size) (halloc : M.allocate n = true) :
    ∃ xs, distributor E M minval maxval n seed_arg = .ok xs ∧
      xs[i]? = some (E.exp (nth_draw E minval maxval seed_arg i)) := by
  refine ⟨_, distributor_eq E M minval maxval n seed_arg hmax halloc, ?_⟩
  rw [fill_getElem? E _ _ _ i (by simpa using hi)]
  rfl

/-- The theorem `distributor_nth` at the bounds `(1.5, 20.06)`, count 100, seed 42 and
position 7. -/
theorem distributor_nth_witness :
    ∃ xs, distributor reference_sampling reference_memory (3 / 2 : ℚ) (1003 / 50) 100 42 =
        .ok xs ∧
      xs[7]? = some (exp3 (nth_draw reference_sampling (3 / 2) (1003 / 50) 42 7)) :=
  distributor_nth reference_sampling reference_memory (3 / 2 : ℚ) (1003 / 50) 100 42 7
    (by norm_num)
    (reference_memory_ok 100 (by norm_num)).1 (reference_memory_ok 100 (by norm_num)).2

/-- C10: for `k <= n`, when the vectors of both counts can be constructed, the sequence
returned for count `k` is the first `k` elements of the sequence returned for count `n`
with the same bounds and seed. -/
theorem distributor_initial_segment [Zero T] (E : Sampling T S D) (M : Memory)
    (minval maxval : T) (seed_arg : Nat) (k n : Nat) (hkn : k ≤ n)
    (hmax : n ≤ M.max_size) (halloc_n : M.allocate n = true)
    (halloc_k : M.allocate k = true) :
    distributor E M minval maxval k seed_arg =
      Except.map (List.take k) (distributor E M minval maxval n seed_arg) := by
  rw [distributor_eq E M minval maxval k seed_arg (le_trans hkn hmax) halloc_k,
    distributor_eq E M minval maxval n seed_arg hmax halloc_n]
  simp only [Except.map]
  rw [← fill_take, List.take_replicate, Nat.min_eq_left hkn]

/-- The theorem `distributor_initial_segment` at the bounds `(1.5, 20.06)`, seed 42 and
the counts 10 and 100. -/
theorem distributor_initial_segment_witness :
    distributor reference_sampling reference_memory (3 / 2 : ℚ) (1003 / 50) 10 42 =
      Except.map (List.take 10)
        (distributor reference_sampling reference_memory (3 / 2 : ℚ) (1003 / 50) 100 42) :=
  distributor_initial_segment reference_sampling reference_memory (3 / 2 : ℚ) (1003 / 50)
    42 10 100 (by norm_num)
    (reference_memory_ok 100 (by norm_num)).1 (reference_memory_ok 100 (by norm_num)).2
    (reference_memory_ok 10 (by norm_num)).2

end distributor

end loguniform
